import Mathlib

/-!
Verification of the experiment-listing core (`cli/pkg/cli/list/list.go`).

The Go source is embedded shallowly: pure functions become Lean functions,
Go maps become association lists (`List (String × Value)`) with `List.lookup`
semantics, fallible calls return `Except String`, and the `exp.ID[:7]` slice
(which panics in Go when the id is shorter than 7 bytes) is modelled by an
`Option` result where `none` stands for the panic.

External collaborators that are part of the repository but not under `src/`
(package `param`'s typed values, `console.FormatTime`, `slices.StringKeys`,
package `project`'s checkpoint selection and storage access) are modelled
from the spec; each such definition carries a doc comment saying so.
-/

namespace Replicate

/-- Modelled from the spec: the type tags of the discriminated typed value
(`param.Type...` constants of package `param`, which is not under `src/`). -/
inductive ValueType where
  | TypeInt
  | TypeFloat
  | TypeString
  | TypeBool
  | TypeObject
deriving DecidableEq

/-- Modelled from the spec: package `param`'s discriminated typed value
(integer, floating-point, string, boolean, structured-object).  Floating-point
payloads are modelled as exact rationals; the structured-object payload is kept
opaque as its serialized form. -/
inductive Value where
  | int (i : Int)
  | float (f : Rat)
  | str (s : String)
  | bool (b : Bool)
  | object (o : String)
deriving DecidableEq

/-- Modelled from the spec: `typedValue.type() -> type tag`. -/
def Value.type : Value → ValueType
  | .int _ => .TypeInt
  | .float _ => .TypeFloat
  | .str _ => .TypeString
  | .bool _ => .TypeBool
  | .object _ => .TypeObject

/-- Modelled from the spec: `typedValue.notEqual(other) -> bool | error`; the
inequality test succeeds on values of the same type tag and returns an
"incomparable" error across mismatched tags (spec §9, Typed Value design
note). -/
def Value.NotEqual : Value → Value → Except String Bool
  | .int a, .int b => .ok (decide (a ≠ b))
  | .float a, .float b => .ok (decide (a ≠ b))
  | .str a, .str b => .ok (decide (a ≠ b))
  | .bool a, .bool b => .ok (decide (a ≠ b))
  | .object a, .object b => .ok (decide (a ≠ b))
  | _, _ => .error "incomparable types"

/-- True when the inequality test succeeds on the two values. -/
def Value.comparableWith (a b : Value) : Bool :=
  match a.NotEqual b with
  | .ok _ => true
  | .error _ => false

/-- Modelled from the spec: the value's natural string form (the basis of
`shortString`); its exact text is external to this core. -/
def Value.natString : Value → String
  | .int i => toString i
  | .float f => toString f.num ++ "/" ++ toString f.den
  | .str s => s
  | .bool b => if b then "true" else "false"
  | .object o => o

/-- Modelled from the spec: `typedValue.shortString(maxLen, truncateLen)` —
render the natural string form; if it exceeds `maxLength` characters, replace
it by the first `truncate` characters followed by an ellipsis marker. -/
def Value.ShortString (v : Value) (maxLength truncate : Nat) : String :=
  let s := v.natString
  if maxLength < s.length then s.take truncate ++ "..." else s

/-- Timestamps (Go `time.Time`), modelled as whole seconds since the epoch
plus a sub-second nanosecond component. -/
structure Time where
  sec : Int
  nsec : Nat
deriving DecidableEq

/-- Go `time.Time.Unix()`: whole seconds since the epoch (sub-second part
discarded). -/
def Time.Unix (t : Time) : Int := t.sec

/-- Go `time.Time.Before`: strict chronological order including the
sub-second component. -/
def Time.Before (a b : Time) : Bool :=
  a.sec < b.sec || (a.sec == b.sec && a.nsec < b.nsec)

/-- Modelled from the spec: `console.FormatTime` (package `console`, not under
`src/`) renders a timestamp as a human-relative duration string; its exact
text is external to this core. -/
def FormatTime (t : Time) : String := toString t.sec ++ "s ago"

/-- Modelled from the spec: the checkpoint's identified primary metric; only
its name is consumed by this core (the metric's value lives in the
checkpoint's metric mapping). -/
structure PrimaryMetric where
  Name : String
deriving DecidableEq

/-- Modelled from the spec: `project.Checkpoint` (external, consumed
read-only): a step number, an identifier, a metric-name → value mapping and
the identified primary metric. -/
structure Checkpoint where
  ID : String
  Step : Int
  Metrics : List (String × Value)
  PrimaryMetric : PrimaryMetric
deriving DecidableEq

/-- Modelled from the spec: the checkpoint's short identifier. -/
def Checkpoint.ShortID (c : Checkpoint) : String := c.ID.take 7

/-- The central list-view record (`ListExperiment` in `list.go`).  The
`Config` field is omitted: it is excluded from all outputs covered here and
never read by this core. -/
structure ListExperiment where
  ID : String
  Created : Time
  Params : List (String × Value)
  Command : String
  NumCheckpoints : Nat
  LatestCheckpoint : Option Checkpoint
  BestCheckpoint : Option Checkpoint
  User : String
  Host : String
  Running : Bool
deriving DecidableEq

/-- `ListExperiment.GetValue` (list.go:55-90): dynamic field resolution — the
virtual fields in source order, then the best checkpoint's metrics, then the
params mapping, else not-found. -/
def ListExperiment.GetValue (exp : ListExperiment) (name : String) : Option Value :=
  if name = "started" then
    -- floating point timestamp used in sorting (float64(exp.Created.Unix()))
    some (Value.float (exp.Created.Unix : Rat))
  else if name = "step" then
    match exp.LatestCheckpoint with
    | some c => some (Value.int c.Step)
    | none => some (Value.int 0)
  else if name = "user" then
    some (Value.str exp.User)
  else if name = "host" then
    some (Value.str exp.Host)
  else if name = "command" then
    some (Value.str exp.Command)
  else if name = "status" then
    if exp.Running then some (Value.str "running") else some (Value.str "stopped")
  else
    match exp.BestCheckpoint with
    | some bc =>
      match bc.Metrics.lookup name with
      | some val => some val
      | none => exp.Params.lookup name
    | none => exp.Params.lookup name

/-- Lexicographic Bool-valued comparison on character lists (by code point). -/
def strLeAux : List Char → List Char → Bool
  | [], _ => true
  | _ :: _, [] => false
  | a :: as, b :: bs =>
    if a.toNat < b.toNat then true
    else if b.toNat < a.toNat then false
    else strLeAux as bs

/-- Lexicographic Bool-valued comparison on strings. -/
def strLe (a b : String) : Bool := strLeAux a.data b.data

/-- The lexicographic order on strings as a proposition. -/
def SLe (a b : String) : Prop := strLe a b = true

instance : DecidableRel SLe := fun a b => inferInstanceAs (Decidable (strLe a b = true))

/-- Modelled from the spec: `slices.StringKeys` (package `slices`, not under
`src/`) returns the key set of a `map[string]bool` as a deterministic,
lexicographically sorted sequence (spec §4.3 determinism requirement; the set
is modelled as a key list with duplicates removed). -/
def StringKeys (keys : List String) : List String :=
  keys.dedup.insertionSort SLe

/-- The state of the changed-only diffing loop in `getParamsToDisplay`
(list.go:246-267): the first-seen value per key (`paramValues`), the keys
proven changed (`expHeadingSet`, a set modelled as a list), and the warnings
emitted by `console.Warn` for failed comparisons. -/
structure DiffState where
  paramValues : List (String × Value)
  expHeadingSet : List String
  warnings : List String
deriving DecidableEq

/-- One iteration of the changed-only diffing loop body (list.go:249-266).
Object-typed values are skipped; the first value seen for a key becomes its
baseline; a later value is compared with the baseline: a failed comparison
only emits a warning, a successful unequal comparison marks the key. -/
def diffStep (s : DiffState) (p : String × Value) : DiffState :=
  -- Don't show objects in list view, because they're likely long and not very helpful
  if p.2.type = ValueType.TypeObject then s
  else
    match s.paramValues.lookup p.1 with
    | some firstVal =>
      match firstVal.NotEqual p.2 with
      | .error e => { s with warnings := s.warnings ++ [e] }
      | .ok true => { s with expHeadingSet := p.1 :: s.expHeadingSet }
      | .ok false => s
    | none => { s with paramValues := (p.1, p.2) :: s.paramValues }

/-- The full nested diffing loop of `getParamsToDisplay` in changed-only
mode: fold `diffStep` over every param entry of every experiment in order. -/
def diffFold (experiments : List ListExperiment) : DiffState :=
  experiments.foldl (fun s exp => exp.Params.foldl diffStep s) ⟨[], [], []⟩

/-- The key collection of `getParamsToDisplay` when all params are shown
(list.go:269-277): every param key whose value is not object-typed. -/
def allParamKeys (experiments : List ListExperiment) : List String :=
  experiments.foldl
    (fun acc exp =>
      exp.Params.foldl
        (fun acc2 p => if p.2.type = ValueType.TypeObject then acc2 else acc2 ++ [p.1]) acc)
    []

/-- `getParamsToDisplay` (list.go:243-281): the parameter columns to display;
in changed-only mode only keys with a successfully-proven unequal pair of
values. -/
def getParamsToDisplay (experiments : List ListExperiment) (onlyChangedParams : Bool) :
    List String :=
  if onlyChangedParams then StringKeys (diffFold experiments).expHeadingSet
  else StringKeys (allParamKeys experiments)

/-- The metric-name collection of `getMetricsToDisplay` (list.go:287-294):
the primary-metric name of every best checkpoint present. -/
def metricNames (experiments : List ListExperiment) : List String :=
  experiments.foldl
    (fun acc exp =>
      match exp.BestCheckpoint with
      | none => acc
      | some c => acc ++ [c.PrimaryMetric.Name])
    []

/-- `getMetricsToDisplay` (list.go:284-297). -/
def getMetricsToDisplay (experiments : List ListExperiment) : List String :=
  StringKeys (metricNames experiments)

def valueMaxLength : Nat := 20

def valueTruncate : Nat := 5

/-- `upper` (list.go:342-348). -/
def upper (input : List String) : List String := input.map String.toUpper

/-- The `hasBestCheckpoint` scan of `outputTable` (list.go:139-146). -/
def hasBestCheckpoint (experiments : List ListExperiment) : Bool :=
  experiments.any (fun exp => exp.BestCheckpoint.isSome)

/-- The header row of `outputTable` (list.go:150-157): the fixed columns, the
upper-cased parameter columns, the latest-checkpoint column, the metric
columns, and — only when some experiment has a best checkpoint — the
best-checkpoint column followed by the metric columns again. -/
def headerKeys (experiments : List ListExperiment) (allParams : Bool) : List String :=
  ["EXPERIMENT", "STARTED", "STATUS", "HOST", "USER"]
    ++ upper (getParamsToDisplay experiments (!allParams))
    ++ ["LATEST CHECKPOINT"]
    ++ upper (getMetricsToDisplay experiments)
    ++ (if hasBestCheckpoint experiments then
          "BEST CHECKPOINT" :: upper (getMetricsToDisplay experiments)
        else [])

/-- A parameter cell of a table row (list.go:188-193): the short-string form
of the record's value for the column, or an empty cell. -/
def paramCell (exp : ListExperiment) (heading : String) : String :=
  match exp.Params.lookup heading with
  | some val => val.ShortString valueMaxLength valueTruncate
  | none => ""

/-- A checkpoint cell (list.go:195-199 and 212-217): `"<shortID> (step <N>)"`
or empty when the checkpoint is absent. -/
def checkpointCell (cp : Option Checkpoint) : String :=
  match cp with
  | some c => c.ShortID ++ " (step " ++ toString c.Step ++ ")"
  | none => ""

/-- A metric cell (list.go:202-210 and 220-228): the short-string form of the
metric's value in the given checkpoint's mapping, or empty. -/
def metricCell (cp : Option Checkpoint) (heading : String) : String :=
  match cp with
  | some c =>
    match c.Metrics.lookup heading with
    | some v => v.ShortString valueMaxLength valueTruncate
    | none => ""
  | none => ""

/-- The cells of one data row up to and including the latest-checkpoint
metric block (list.go:167-210). -/
def rowMainCells (paramsToDisplay metricsToDisplay : List String) (exp : ListExperiment) :
    List String :=
  [exp.ID.take 7, FormatTime exp.Created, if exp.Running then "running" else "stopped",
      exp.Host, exp.User]
    ++ paramsToDisplay.map (paramCell exp)
    ++ [checkpointCell exp.LatestCheckpoint]
    ++ metricsToDisplay.map (metricCell exp.LatestCheckpoint)

/-- The best-checkpoint cells of one data row (list.go:212-228).  These are
written unconditionally for every row, with empty contents when the record
has no best checkpoint. -/
def rowBestCells (metricsToDisplay : List String) (exp : ListExperiment) : List String :=
  checkpointCell exp.BestCheckpoint :: metricsToDisplay.map (metricCell exp.BestCheckpoint)

/-- One data row of `outputTable` (list.go:167-231).  `none` models the Go
panic of `exp.ID[:7]` when the identifier is shorter than 7 characters. -/
def rowCells (paramsToDisplay metricsToDisplay : List String) (exp : ListExperiment) :
    Option (List String) :=
  if 7 ≤ exp.ID.length then
    some (rowMainCells paramsToDisplay metricsToDisplay exp
      ++ rowBestCells metricsToDisplay exp)
  else none

/-- The observable result of `outputTable`: either the "No experiments found"
notice, or a header row plus one cell list per record. -/
inductive TableOutput where
  | noRecords
  | table (header : List String) (rows : List (List String))
deriving DecidableEq

/-- `outputTable` (list.go:130-239), modelled structurally: the emitted cells
per line rather than the tab-joined text.  `none` models a panic. -/
def outputTable (experiments : List ListExperiment) (allParams : Bool) : Option TableOutput :=
  if experiments.length = 0 then some TableOutput.noRecords
  else
    match experiments.mapM
        (rowCells (getParamsToDisplay experiments (!allParams))
          (getMetricsToDisplay experiments)) with
    | some rows => some (TableOutput.table (headerKeys experiments allParams) rows)
    | none => none

/-- `outputQuiet` (list.go:113-118): one identifier per line; the Go function
always returns a nil error, so the model is total. -/
def outputQuiet (experiments : List ListExperiment) : List String :=
  experiments.map (fun exp => exp.ID)

/-- The header of a table output, or `[]` for a notice/panic result. -/
def tableHeader : Option TableOutput → List String
  | some (.table h _) => h
  | _ => []

/-- The number of header columns of a table output. -/
def tableHeaderLength (t : Option TableOutput) : Nat := (tableHeader t).length

/-- The data rows of a table output. -/
def tableRows : Option TableOutput → List (List String)
  | some (.table _ rows) => rows
  | _ => []

/-- The per-row cell counts of a table output. -/
def tableRowLengths (t : Option TableOutput) : List Nat :=
  (tableRows t).map List.length

/-- A raw experiment as retrieved from storage (`project.Experiment`,
external to `src/`).  `LatestCheckpoint` and `BestCheckpoint` are modelled
from the spec as the results of the external checkpoint-ranking rule (highest
step; extremal primary metric), taken here as given data. -/
structure Experiment where
  ID : String
  Created : Time
  Params : List (String × Value)
  Command : String
  Host : String
  User : String
  Checkpoints : List Checkpoint
  LatestCheckpoint : Option Checkpoint
  BestCheckpoint : Option Checkpoint
deriving DecidableEq

/-- Modelled from the spec: the storage/project collaborator consumed by
`createListExperiments` — `fetchExperiments()` and `isRunning(experimentID)`,
each of which may fail. -/
structure Project where
  Experiments : Except String (List Experiment)
  ExperimentIsRunning : String → Except String Bool

/-- Modelled from the spec: the filter-predicate engine —
`filterPredicate.matches(record) -> bool | error`. -/
structure Filters where
  Matches : ListExperiment → Except String Bool

/-- Modelled from the spec: the sort-comparator engine —
`comparator.lessThan(a, b) -> bool`. -/
structure Sorter where
  LessThan : ListExperiment → ListExperiment → Bool

/-- The `ListExperiment` assembled for one raw experiment by
`createListExperiments` (list.go:306-322), given the result of the run-state
query. -/
def builtRecord (exp : Experiment) (running : Bool) : ListExperiment :=
  { ID := exp.ID
    Created := exp.Created
    Params := exp.Params
    Command := exp.Command
    NumCheckpoints := exp.Checkpoints.length
    LatestCheckpoint := exp.LatestCheckpoint
    BestCheckpoint := exp.BestCheckpoint
    User := exp.User
    Host := exp.Host
    Running := running }

/-- The per-experiment loop of `createListExperiments` (list.go:305-332):
build the record, query the run state (failure aborts), evaluate the filter
(failure aborts), drop non-matching records. -/
def createLoop (proj : Project) (filters : Filters) :
    List Experiment → Except String (List ListExperiment)
  | [] => .ok []
  | exp :: rest =>
    match proj.ExperimentIsRunning exp.ID with
    | .error e => .error e
    | .ok running =>
      let listExperiment := builtRecord exp running
      match filters.Matches listExperiment with
      | .error e => .error e
      | .ok m =>
        match createLoop proj filters rest with
        | .error e => .error e
        | .ok ret => if m then .ok (listExperiment :: ret) else .ok ret

/-- The stable baseline ordering of `createListExperiments` (list.go:334-336):
sort ascending by creation time (`sort.Slice` with `Created.Before`, modelled
as an insertion sort by the corresponding reflexive order). -/
def sortByCreated (l : List ListExperiment) : List ListExperiment :=
  l.insertionSort (fun a b => Time.Before b.Created a.Created = false)

/-- `createListExperiments` (list.go:299-340). -/
def createListExperiments (proj : Project) (filters : Filters) :
    Except String (List ListExperiment) :=
  match proj.Experiments with
  | .error e => .error e
  | .ok experiments =>
    match createLoop proj filters experiments with
    | .error e => .error e
    | .ok ret => .ok (sortByCreated ret)

/-- Whether processing this raw experiment aborts the listing: the run-state
query fails, or the filter predicate fails on the built record. -/
def stepFails (proj : Project) (filters : Filters) (exp : Experiment) : Bool :=
  match proj.ExperimentIsRunning exp.ID with
  | .error _ => true
  | .ok running =>
    match filters.Matches (builtRecord exp running) with
    | .error _ => true
    | .ok _ => false

/-- The record this raw experiment contributes when nothing fails: its built
record if the filter matches, dropped otherwise (or on any failure). -/
def keptRecord (proj : Project) (filters : Filters) (exp : Experiment) :
    Option ListExperiment :=
  match proj.ExperimentIsRunning exp.ID with
  | .error _ => none
  | .ok running =>
    let le := builtRecord exp running
    match filters.Matches le with
    | .error _ => none
    | .ok m => if m then some le else none

/-- The output format selector (list.go:21-27). -/
inductive Format where
  | FormatJSON
  | FormatTable
  | FormatQuiet

/-- The observable report of the `Experiments` entry point.  The structured
(JSON) document is modelled by the record sequence it serializes. -/
inductive RunOutput where
  | json (records : List ListExperiment)
  | table (t : TableOutput)
  | quiet (lines : List String)

/-- `Experiments` (list.go:92-111): build, filter, sort with the caller's
comparator (`sort.Slice` modelled as an insertion sort by the comparator's
complement), and render; `none` models a panic. -/
def Experiments (proj : Project) (format : Format) (allParams : Bool)
    (filters : Filters) (sorter : Sorter) : Option (Except String RunOutput) :=
  match createListExperiments proj filters with
  | .error e => some (.error e)
  | .ok listExperiments =>
    let sorted := listExperiments.insertionSort (fun a b => sorter.LessThan b a = false)
    match format with
    | .FormatJSON => some (.ok (.json sorted))
    | .FormatTable => (outputTable sorted allParams).map (fun t => .ok (.table t))
    | .FormatQuiet => some (.ok (.quiet (outputQuiet sorted)))

/-- Modelled from the spec: 'started' resolves to the creation time as a
fractional-seconds-since-epoch numeric value preserving sub-second
precision (spec §4.1). -/
def startedSpec (t : Time) : Rat := (t.sec : Rat) + (t.nsec : Rat) / 1000000000

/-- The 'step' virtual field value: the latest checkpoint's step, or 0. -/
def stepValue (exp : ListExperiment) : Int :=
  match exp.LatestCheckpoint with
  | some c => c.Step
  | none => 0

/-- Modelled from the spec (§9 design note): the virtual fields as an explicit
ordered lookup table of named resolvers, in the fixed precedence order
started, step, user, host, command, status. -/
def virtualFieldResolvers : List (String × (ListExperiment → Value)) :=
  [("started", fun exp => Value.float (exp.Created.Unix : Rat)),
   ("step", fun exp => Value.int (stepValue exp)),
   ("user", fun exp => Value.str exp.User),
   ("host", fun exp => Value.str exp.Host),
   ("command", fun exp => Value.str exp.Command),
   ("status", fun exp => if exp.Running then Value.str "running" else Value.str "stopped")]

/-- First-match lookup in a resolver table. -/
def lookupResolver : List (String × (ListExperiment → Value)) → String →
    Option (ListExperiment → Value)
  | [], _ => none
  | (k, f) :: rest, name => if name = k then some f else lookupResolver rest name

/-- The best checkpoint's metric value for a field name, when present. -/
def bestCheckpointMetric (exp : ListExperiment) (name : String) : Option Value :=
  exp.BestCheckpoint.bind (fun bc => bc.Metrics.lookup name)

/-- Modelled from the spec (§4.1): layered field resolution — the virtual
field table first, then the best checkpoint's metrics, then the params
mapping, otherwise not-found. -/
def resolveLayered (exp : ListExperiment) (name : String) : Option Value :=
  match lookupResolver virtualFieldResolvers name with
  | some f => some (f exp)
  | none =>
    match bestCheckpointMetric exp name with
    | some val => some val
    | none => exp.Params.lookup name

/-- All param entries of a record sequence, in iteration order. -/
def flatParams (experiments : List ListExperiment) : List (String × Value) :=
  experiments.flatMap (fun exp => exp.Params)

/-- The non-object values carried by a key across a param-entry sequence, in
order: the head (if any) is the diffing baseline for the key. -/
def valsOf (l : List (String × Value)) (k : String) : List Value :=
  (l.filter (fun p => p.1 == k && !(p.2.type == ValueType.TypeObject))).map Prod.snd

/-- A key is proven changed: some non-first value compares successfully and
unequal against the key's first-seen (baseline) value. -/
def changedKey (l : List (String × Value)) (k : String) : Prop :=
  match valsOf l k with
  | [] => False
  | v0 :: vs => ∃ v ∈ vs, v0.NotEqual v = Except.ok true

/-- Some two values in the list compare successfully and unequal. -/
def someUnequalPair (vals : List Value) : Prop :=
  ∃ a ∈ vals, ∃ b ∈ vals, a.NotEqual b = Except.ok true

instance decidableEqExcept {ε α : Type} [DecidableEq ε] [DecidableEq α] :
    DecidableEq (Except ε α)
  | .error a, .error b =>
    if h : a = b then .isTrue (by rw [h]) else .isFalse (by simp [h])
  | .error _, .ok _ => .isFalse (by simp)
  | .ok _, .error _ => .isFalse (by simp)
  | .ok a, .ok b =>
    if h : a = b then .isTrue (by rw [h]) else .isFalse (by simp [h])

/-- A concrete latest checkpoint used in examples. -/
def cpLatest : Checkpoint :=
  { ID := "ccccccc1111", Step := 5, Metrics := [("loss", Value.float 2)],
    PrimaryMetric := { Name := "loss" } }

/-- A concrete best checkpoint used in examples. -/
def cpBest : Checkpoint :=
  { ID := "ddddddd2222", Step := 20, Metrics := [("loss", Value.float 1)],
    PrimaryMetric := { Name := "loss" } }

/-- A record with a full-length identifier and no checkpoints. -/
def expNoBest : ListExperiment :=
  { ID := "abcdef1234567", Created := { sec := 0, nsec := 0 }, Params := [],
    Command := "train.py", NumCheckpoints := 0, LatestCheckpoint := none,
    BestCheckpoint := none, User := "ada", Host := "10.0.0.1", Running := false }

/-- A second record with a full-length identifier and no checkpoints. -/
def expNoBest2 : ListExperiment :=
  { ID := "fedcba7654321", Created := { sec := 10, nsec := 0 }, Params := [],
    Command := "train.py", NumCheckpoints := 0, LatestCheckpoint := none,
    BestCheckpoint := none, User := "bob", Host := "10.0.0.2", Running := true }

/-- A record with both a latest and a best checkpoint. -/
def expWithBest : ListExperiment :=
  { ID := "0123456789abc", Created := { sec := 20, nsec := 0 },
    Params := [("lr", Value.float 1)], Command := "train.py", NumCheckpoints := 2,
    LatestCheckpoint := some cpLatest, BestCheckpoint := some cpBest, User := "ada",
    Host := "10.0.0.1", Running := true }

/-- A record whose identifier is shorter than 7 characters. -/
def expShortID : ListExperiment :=
  { ID := "abc", Created := { sec := 0, nsec := 0 }, Params := [],
    Command := "train.py", NumCheckpoints := 0, LatestCheckpoint := none,
    BestCheckpoint := none, User := "ada", Host := "10.0.0.1", Running := false }

/-- A record created half a second after the epoch. -/
def expHalfSecond : ListExperiment :=
  { ID := "abcdef1234567", Created := { sec := 0, nsec := 500000000 }, Params := [],
    Command := "train.py", NumCheckpoints := 0, LatestCheckpoint := none,
    BestCheckpoint := none, User := "ada", Host := "10.0.0.1", Running := false }

/-- A record whose parameter `p` is the integer 1. -/
def expParamInt1 : ListExperiment :=
  { ID := "aaaaaaa111111", Created := { sec := 1, nsec := 0 },
    Params := [("p", Value.int 1)], Command := "train.py", NumCheckpoints := 0,
    LatestCheckpoint := none, BestCheckpoint := none, User := "ada",
    Host := "10.0.0.1", Running := false }

/-- A record whose parameter `p` is the integer 2. -/
def expParamInt2 : ListExperiment :=
  { ID := "bbbbbbb222222", Created := { sec := 2, nsec := 0 },
    Params := [("p", Value.int 2)], Command := "train.py", NumCheckpoints := 0,
    LatestCheckpoint := none, BestCheckpoint := none, User := "ada",
    Host := "10.0.0.1", Running := false }

/-- A record whose parameter `p` is the string "a". -/
def expParamStr : ListExperiment :=
  { ID := "ccccccc333333", Created := { sec := 3, nsec := 0 },
    Params := [("p", Value.str "a")], Command := "train.py", NumCheckpoints := 0,
    LatestCheckpoint := none, BestCheckpoint := none, User := "ada",
    Host := "10.0.0.1", Running := false }

/-- A record whose only parameter is object-typed. -/
def expObjOnly : ListExperiment :=
  { ID := "ooooooo444444", Created := { sec := 4, nsec := 0 },
    Params := [("cfg", Value.object "deep structure")], Command := "train.py",
    NumCheckpoints := 0, LatestCheckpoint := none, BestCheckpoint := none,
    User := "ada", Host := "10.0.0.1", Running := false }

/-- A concrete raw experiment used in the listing examples. -/
def rawExp1 : Experiment :=
  { ID := "exp1exp1exp1e", Created := { sec := 0, nsec := 0 }, Params := [],
    Command := "train.py", Host := "10.0.0.1", User := "ada", Checkpoints := [],
    LatestCheckpoint := none, BestCheckpoint := none }

/-- A project whose run-state query always fails. -/
def projFailRun : Project :=
  { Experiments := .ok [rawExp1],
    ExperimentIsRunning := fun _ => .error "heartbeat read failed" }

/-- A project whose collaborators always succeed. -/
def projOk : Project :=
  { Experiments := .ok [rawExp1], ExperimentIsRunning := fun _ => .ok false }

/-- A filter that matches every record. -/
def filtersTrue : Filters := { Matches := fun _ => .ok true }

/-- A filter whose evaluation always fails. -/
def filtersFail : Filters := { Matches := fun _ => .error "bad filter" }

theorem mapM_isSome {α β : Type} (f : α → Option β) :
    ∀ l : List α, (∀ x ∈ l, (f x).isSome = true) →
      ∃ ys, l.mapM f = some ys ∧ ys.length = l.length ∧
        ∀ y ∈ ys, ∃ x ∈ l, f x = some y := by
  intro l
  induction l with
  | nil => intro _; exact ⟨[], rfl, rfl, by simp⟩
  | cons a l ih =>
    intro h
    have ha : (f a).isSome = true := h a (by simp)
    obtain ⟨b, hb⟩ := Option.isSome_iff_exists.mp ha
    obtain ⟨ys, hys, hlen, hmem⟩ := ih (fun x hx => h x (by simp [hx]))
    refine ⟨b :: ys, ?_, by simp [hlen], ?_⟩
    · rw [List.mapM_cons, hb, hys]; rfl
    · intro y hy
      rcases List.mem_cons.mp hy with h1 | h1
      · exact ⟨a, by simp, by rw [hb, h1]⟩
      · obtain ⟨x, hx, hfx⟩ := hmem y h1
        exact ⟨x, by simp [hx], hfx⟩

theorem rowCells_eq (P M : List String) (exp : ListExperiment) (h : 7 ≤ exp.ID.length) :
    rowCells P M exp = some (rowMainCells P M exp ++ rowBestCells M exp) := by
  simp [rowCells, h]

theorem rowCells_total_length (P M : List String) (exp : ListExperiment) :
    (rowMainCells P M exp ++ rowBestCells M exp).length = 7 + P.length + 2 * M.length := by
  simp [rowMainCells, rowBestCells]
  omega

theorem metricNames_all_none (exps : List ListExperiment)
    (h : ∀ e ∈ exps, e.BestCheckpoint = none) : metricNames exps = [] := by
  have step : ∀ (l : List ListExperiment) (acc : List String),
      (∀ e ∈ l, e.BestCheckpoint = none) →
      l.foldl
        (fun acc exp =>
          match exp.BestCheckpoint with
          | none => acc
          | some c => acc ++ [c.PrimaryMetric.Name]) acc = acc := by
    intro l
    induction l with
    | nil => intro acc _; rfl
    | cons a l ih =>
      intro acc hl
      have ha : a.BestCheckpoint = none := hl a (by simp)
      simp only [List.foldl_cons, ha]
      exact ih acc (fun e he => hl e (by simp [he]))
  exact step exps [] h

theorem getMetricsToDisplay_eq_nil (exps : List ListExperiment)
    (h : hasBestCheckpoint exps = false) : getMetricsToDisplay exps = [] := by
  have hnone : ∀ e ∈ exps, e.BestCheckpoint = none := by
    intro e he
    have := List.any_eq_false.mp h e he
    exact Option.not_isSome_iff_eq_none.mp (by simpa using this)
  rw [getMetricsToDisplay, metricNames_all_none exps hnone]
  rfl

theorem headerKeys_length (exps : List ListExperiment) (allParams : Bool) :
    (headerKeys exps allParams).length =
      6 + (getParamsToDisplay exps (!allParams)).length + (getMetricsToDisplay exps).length
        + (if hasBestCheckpoint exps then 1 + (getMetricsToDisplay exps).length else 0) := by
  by_cases hb : hasBestCheckpoint exps <;> simp [headerKeys, hb, upper] <;> omega

theorem outputTable_some (exps : List ListExperiment) (allParams : Bool)
    (hne : exps ≠ []) (hids : ∀ e ∈ exps, 7 ≤ e.ID.length) :
    ∃ rows,
      outputTable exps allParams = some (TableOutput.table (headerKeys exps allParams) rows) ∧
      rows.length = exps.length ∧
      ∀ r ∈ rows, ∃ e ∈ exps,
        r = rowMainCells (getParamsToDisplay exps (!allParams)) (getMetricsToDisplay exps) e
          ++ rowBestCells (getMetricsToDisplay exps) e := by
  obtain ⟨ys, hys, hlen, hmem⟩ :=
    mapM_isSome
      (rowCells (getParamsToDisplay exps (!allParams)) (getMetricsToDisplay exps)) exps
      (fun e he => by simp [rowCells, hids e he])
  have h0 : ¬ (exps.length = 0) := by simpa [List.length_eq_zero] using hne
  refine ⟨ys, ?_, hlen, ?_⟩
  · simp only [outputTable, h0, if_false]
    rw [hys]
  · intro r hr
    obtain ⟨e, he, hfe⟩ := hmem r hr
    refine ⟨e, he, ?_⟩
    rw [rowCells_eq _ _ e (hids e he)] at hfe
    exact (Option.some_inj.mp hfe).symm

/-- C4: field resolution follows the fixed precedence order: the virtual
fields (started, step, user, host, command, status) first, then the best
checkpoint's metric value when the name matches a metric there, then the
params mapping by exact key, otherwise not-found; in particular a user
parameter named like a virtual field (e.g. `status`) is always shadowed by
the virtual field. -/
theorem getValue_precedence :
    (∀ (exp : ListExperiment) (name : String),
      ListExperiment.GetValue exp name = resolveLayered exp name) ∧
    (∀ exp : ListExperiment,
      ListExperiment.GetValue exp "status" =
        some (if exp.Running then Value.str "running" else Value.str "stopped")) := by
  constructor
  · intro exp name
    by_cases h1 : name = "started"
    · simp [ListExperiment.GetValue, resolveLayered, virtualFieldResolvers, lookupResolver, h1]
    by_cases h2 : name = "step"
    · cases h : exp.LatestCheckpoint <;>
        simp [ListExperiment.GetValue, resolveLayered, virtualFieldResolvers, lookupResolver,
          stepValue, h1, h2, h]
    by_cases h3 : name = "user"
    · simp [ListExperiment.GetValue, resolveLayered, virtualFieldResolvers, lookupResolver,
        h1, h2, h3]
    by_cases h4 : name = "host"
    · simp [ListExperiment.GetValue, resolveLayered, virtualFieldResolvers, lookupResolver,
        h1, h2, h3, h4]
    by_cases h5 : name = "command"
    · simp [ListExperiment.GetValue, resolveLayered, virtualFieldResolvers, lookupResolver,
        h1, h2, h3, h4, h5]
    by_cases h6 : name = "status"
    · cases hr : exp.Running <;>
        simp [ListExperiment.GetValue, resolveLayered, virtualFieldResolvers, lookupResolver,
          h1, h2, h3, h4, h5, h6, hr]
    simp only [ListExperiment.GetValue, resolveLayered, virtualFieldResolvers, lookupResolver,
      bestCheckpointMetric, if_neg h1, if_neg h2, if_neg h3, if_neg h4, if_neg h5, if_neg h6]
    cases hb : exp.BestCheckpoint with
    | none => simp
    | some bc => cases bc.Metrics.lookup name <;> simp
  · intro exp
    cases hr : exp.Running <;> simp [ListExperiment.GetValue, hr]

/-- C5 counterexample: for a record created half a second after the epoch,
`started` resolves to the floating-point value 0 (whole seconds), not to the
fractional-seconds value 1/2 demanded by the spec, so sub-second precision is
not preserved. -/
theorem started_drops_subseconds_cex :
    ListExperiment.GetValue expHalfSecond "started" = some (Value.float 0) ∧
    startedSpec expHalfSecond.Created = 1 / 2 ∧
    ListExperiment.GetValue expHalfSecond "started"
      ≠ some (Value.float (startedSpec expHalfSecond.Created)) := by
  have h1 : ListExperiment.GetValue expHalfSecond "started" = some (Value.float 0) := by
    simp [ListExperiment.GetValue, expHalfSecond, Time.Unix]
  have h2 : startedSpec expHalfSecond.Created = 1 / 2 := by
    simp only [startedSpec, expHalfSecond]
    norm_num
  refine ⟨h1, h2, ?_⟩
  rw [h1, h2]
  intro hcontra
  have hne : (0 : Rat) ≠ 1 / 2 := by norm_num
  simp only [Option.some.injEq, Value.float.injEq] at hcontra
  exact hne hcontra

/-- C5 amended: `started` resolves to the creation time's whole-seconds Unix
timestamp as a floating-point value (the sub-second component is discarded by
`Created.Unix()`), and `step` resolves to the latest checkpoint's step
number, or 0 when there is no latest checkpoint. -/
theorem started_step_amended :
    ∀ exp : ListExperiment,
      ListExperiment.GetValue exp "started" = some (Value.float (exp.Created.Unix : Rat)) ∧
      ListExperiment.GetValue exp "step" = some (Value.int (stepValue exp)) := by
  intro exp
  constructor
  · simp [ListExperiment.GetValue]
  · simp only [ListExperiment.GetValue, stepValue]
    norm_num
    cases exp.LatestCheckpoint <;> rfl

/-- C9: on an empty filtered record set, identifier-only mode prints nothing
and succeeds, and tabular mode prints only the "no records" notice (no header
row) and succeeds, in both column modes. -/
theorem empty_set_outputs :
    outputQuiet [] = [] ∧
    outputTable [] true = some TableOutput.noRecords ∧
    outputTable [] false = some TableOutput.noRecords :=
  ⟨rfl, rfl, rfl⟩

/-- C10: tabular rendering truncates each identifier with `exp.ID[:7]` and is
only total when every identifier has length at least 7; on a record set
containing a shorter id it panics (modelled by `none`) instead of returning
output or an error. -/
theorem id_truncation_partial :
    (∀ (exps : List ListExperiment) (allParams : Bool),
        (∀ e ∈ exps, 7 ≤ e.ID.length) → (outputTable exps allParams).isSome = true) ∧
    outputTable [expShortID] false = none := by
  constructor
  · intro exps allParams hids
    by_cases hne : exps = []
    · subst hne; simp [outputTable]
    · obtain ⟨rows, hrows, -, -⟩ := outputTable_some exps allParams hne hids
      simp [hrows]
  · decide

/-- Witness for C10's theorem at a concrete record set whose ids all have
length at least 7. -/
theorem id_truncation_partial_witness :
    (outputTable [expNoBest] false).isSome = true :=
  id_truncation_partial.1 [expNoBest] false (by decide)

/-- C1 counterexample: for a non-empty record set in which no record has a
best checkpoint, the header has 6 columns but every data row emits 7 cells
(the unconditional empty best-checkpoint cell), so the claimed header/row
width equality fails. -/
theorem outputTable_row_header_skew_cex :
    tableHeaderLength (outputTable [expNoBest] false) = 6 ∧
    tableRowLengths (outputTable [expNoBest] false) = [7] ∧
    ¬ (∀ n ∈ tableRowLengths (outputTable [expNoBest] false),
        n = tableHeaderLength (outputTable [expNoBest] false)) := by decide

/-- C2 counterexample: when no record has a best checkpoint the header omits
the BEST CHECKPOINT block, yet every data row still emits one (empty)
best-checkpoint cell beyond the 6 header columns — cells of the
best-checkpoint block are emitted even though no record has one. -/
theorem bestCheckpoint_cells_always_emitted_cex :
    hasBestCheckpoint [expNoBest, expNoBest2] = false ∧
    "BEST CHECKPOINT" ∉ tableHeader (outputTable [expNoBest, expNoBest2] false) ∧
    (tableRows (outputTable [expNoBest, expNoBest2] false)).map (fun r => r.drop 6) =
      [[""], [""]] ∧
    tableHeaderLength (outputTable [expNoBest, expNoBest2] false) = 6 := by decide

theorem nested_foldl_eq_flat {σ : Type} (f : σ → (String × Value) → σ) :
    ∀ (exps : List ListExperiment) (s : σ),
      exps.foldl (fun s2 exp => exp.Params.foldl f s2) s = (flatParams exps).foldl f s := by
  intro exps
  induction exps with
  | nil => intro s; rfl
  | cons e exps ih =>
    intro s
    rw [List.foldl_cons, ih (e.Params.foldl f s)]
    show _ = ((e :: exps).flatMap (fun exp => exp.Params)).foldl f s
    rw [List.flatMap_cons, List.foldl_append]
    rfl

theorem valsOf_cons (p : String × Value) (l : List (String × Value)) (k : String) :
    valsOf (p :: l) k =
      if p.1 == k && !(p.2.type == ValueType.TypeObject) then p.2 :: valsOf l k
      else valsOf l k := by
  simp only [valsOf, List.filter_cons]
  split <;> simp

theorem valsOf_eq_nil {l : List (String × Value)} {k : String}
    (h : ∀ p ∈ l, p.1 = k → p.2.type = ValueType.TypeObject) : valsOf l k = [] := by
  have hfil : (l.filter fun p => p.1 == k && !(p.2.type == ValueType.TypeObject)) = [] := by
    rw [List.filter_eq_nil_iff]
    intro p hp
    by_cases hpk : p.1 = k
    · simp [hpk, h p hp hpk]
    · simp [hpk]
  simp [valsOf, hfil]

theorem mem_foldl_diffStep (k : String) :
    ∀ (l : List (String × Value)) (s : DiffState),
      k ∈ (l.foldl diffStep s).expHeadingSet ↔
        k ∈ s.expHeadingSet ∨
          (match s.paramValues.lookup k with
           | some v0 => ∃ v ∈ valsOf l k, v0.NotEqual v = Except.ok true
           | none => changedKey l k) := by
  intro l
  induction l with
  | nil =>
    intro s
    cases h : s.paramValues.lookup k <;> simp [changedKey, valsOf, h]
  | cons p l ih =>
    obtain ⟨pk, pv⟩ := p
    intro s
    rw [List.foldl_cons, ih (diffStep s (pk, pv))]
    by_cases hobj : pv.type = ValueType.TypeObject
    · have hstep : diffStep s (pk, pv) = s := by simp [diffStep, hobj]
      have hvals : valsOf ((pk, pv) :: l) k = valsOf l k := by
        rw [valsOf_cons]; simp [hobj]
      rw [hstep]
      cases h : s.paramValues.lookup k <;> simp [h, changedKey, hvals]
    by_cases hk : pk = k
    · subst hk
      have hvals : valsOf ((pk, pv) :: l) pk = pv :: valsOf l pk := by
        rw [valsOf_cons]; simp [hobj]
      cases hfv : s.paramValues.lookup pk with
      | some v0 =>
        cases hne : v0.NotEqual pv with
        | error e =>
          have hstep : diffStep s (pk, pv) = { s with warnings := s.warnings ++ [e] } := by
            simp [diffStep, hobj, hfv, hne]
          rw [hstep]
          simp [hfv, hne, hvals, changedKey]
        | ok b =>
          cases b
          · have hstep : diffStep s (pk, pv) = s := by
              simp [diffStep, hobj, hfv, hne]
            rw [hstep]
            simp [hfv, hne, hvals, changedKey]
          · have hstep : diffStep s (pk, pv) =
                { s with expHeadingSet := pk :: s.expHeadingSet } := by
              simp [diffStep, hobj, hfv, hne]
            rw [hstep]
            simp [hfv, hne, hvals, changedKey]
      | none =>
        have hstep : diffStep s (pk, pv) =
            { s with paramValues := (pk, pv) :: s.paramValues } := by
          simp [diffStep, hobj, hfv]
        rw [hstep]
        simp [hfv, hvals, changedKey, List.lookup]
    · have hbeq : (pk == k) = false := beq_eq_false_iff_ne.mpr hk
      have hk2 : k ≠ pk := fun h => hk h.symm
      have hkbeq : (k == pk) = false := beq_eq_false_iff_ne.mpr hk2
      have hvals : valsOf ((pk, pv) :: l) k = valsOf l k := by
        rw [valsOf_cons]; simp [hbeq]
      have hpv_hs : (diffStep s (pk, pv)).paramValues.lookup k = s.paramValues.lookup k ∧
          (k ∈ (diffStep s (pk, pv)).expHeadingSet ↔ k ∈ s.expHeadingSet) := by
        cases hfv : s.paramValues.lookup pk with
        | some v0 =>
          cases hne : v0.NotEqual pv with
          | error e =>
            have hstep : diffStep s (pk, pv) = { s with warnings := s.warnings ++ [e] } := by
              simp [diffStep, hobj, hfv, hne]
            rw [hstep]
            exact ⟨rfl, Iff.rfl⟩
          | ok b =>
            cases b
            · have hstep : diffStep s (pk, pv) = s := by
                simp [diffStep, hobj, hfv, hne]
              rw [hstep]
              exact ⟨rfl, Iff.rfl⟩
            · have hstep : diffStep s (pk, pv) =
                  { s with expHeadingSet := pk :: s.expHeadingSet } := by
                simp [diffStep, hobj, hfv, hne]
              rw [hstep]
              refine ⟨rfl, ?_⟩
              simp [List.mem_cons, hk2]
        | none =>
          have hstep : diffStep s (pk, pv) =
              { s with paramValues := (pk, pv) :: s.paramValues } := by
            simp [diffStep, hobj, hfv]
          rw [hstep]
          refine ⟨?_, Iff.rfl⟩
          show List.lookup k ((pk, pv) :: s.paramValues) = _
          simp [List.lookup, hkbeq]
      obtain ⟨hpv, hhs⟩ := hpv_hs
      rw [hpv, hhs]
      cases h : s.paramValues.lookup k <;> simp [h, changedKey, hvals]

theorem mem_StringKeys (x : String) (l : List String) : x ∈ StringKeys l ↔ x ∈ l := by
  rw [StringKeys, List.Perm.mem_iff (List.perm_insertionSort SLe l.dedup)]
  exact List.mem_dedup

theorem mem_getParamsToDisplay_changed (exps : List ListExperiment) (k : String) :
    k ∈ getParamsToDisplay exps true ↔ changedKey (flatParams exps) k := by
  rw [getParamsToDisplay, if_pos rfl, mem_StringKeys, diffFold,
    nested_foldl_eq_flat diffStep exps, mem_foldl_diffStep]
  simp [List.lookup]

theorem foldl_collect_keys :
    ∀ (l : List (String × Value)) (acc : List String),
      l.foldl
        (fun acc2 p => if p.2.type = ValueType.TypeObject then acc2 else acc2 ++ [p.1]) acc
        = acc ++ (l.filter (fun p => !(p.2.type == ValueType.TypeObject))).map Prod.fst := by
  intro l
  induction l with
  | nil => intro acc; simp
  | cons p l ih =>
    intro acc
    rw [List.foldl_cons]
    by_cases hobj : p.2.type = ValueType.TypeObject
    · rw [if_pos hobj, ih]
      simp [List.filter_cons, hobj]
    · rw [if_neg hobj, ih]
      simp [List.filter_cons, hobj]

theorem mem_getParamsToDisplay_all (exps : List ListExperiment) (k : String) :
    k ∈ getParamsToDisplay exps false ↔
      ∃ p ∈ flatParams exps, p.2.type ≠ ValueType.TypeObject ∧ p.1 = k := by
  rw [getParamsToDisplay, if_neg (by simp), mem_StringKeys, allParamKeys,
    nested_foldl_eq_flat, foldl_collect_keys]
  constructor
  · intro hmem
    simp only [List.nil_append, List.mem_map] at hmem
    obtain ⟨p, hp, hpk⟩ := hmem
    rw [List.mem_filter] at hp
    refine ⟨p, hp.1, ?_, hpk⟩
    simpa using hp.2
  · rintro ⟨p, hp, hobj, hpk⟩
    simp only [List.nil_append, List.mem_map]
    refine ⟨p, ?_, hpk⟩
    rw [List.mem_filter]
    exact ⟨hp, by simpa using hobj⟩

/-- C6: during changed-only column diffing a failed inequality test is
non-fatal and never by itself selects a key: a key is selected exactly when
some later value compares successfully — and unequal — against the key's
first-seen non-object value; concretely, an incomparable pair only emits a
warning and leaves the key unselected. -/
theorem comparison_failure_nonfatal :
    (∀ (exps : List ListExperiment) (k : String),
      k ∈ getParamsToDisplay exps true ↔ changedKey (flatParams exps) k) ∧
    (diffFold [expParamInt1, expParamStr]).warnings = ["incomparable types"] ∧
    getParamsToDisplay [expParamInt1, expParamStr] true = [] :=
  ⟨mem_getParamsToDisplay_changed, by decide, by decide⟩

/-- C8: a parameter key all of whose values carry the structured-object type
tag is never selected as a display column, in changed-only mode and in
include-all-parameters mode alike. -/
theorem object_params_never_displayed
    (exps : List ListExperiment) (k : String) (onlyChangedParams : Bool)
    (h : ∀ exp ∈ exps, ∀ p ∈ exp.Params, p.1 = k → p.2.type = ValueType.TypeObject) :
    k ∉ getParamsToDisplay exps onlyChangedParams := by
  have hflat : ∀ p ∈ flatParams exps, p.1 = k → p.2.type = ValueType.TypeObject := by
    intro p hp
    simp only [flatParams, List.mem_flatMap] at hp
    obtain ⟨e, he, hpe⟩ := hp
    exact h e he p hpe
  cases onlyChangedParams
  · intro hmem
    rw [mem_getParamsToDisplay_all] at hmem
    obtain ⟨p, hp, hobj, hpk⟩ := hmem
    exact hobj (hflat p hp hpk)
  · intro hmem
    rw [mem_getParamsToDisplay_changed] at hmem
    rw [changedKey, valsOf_eq_nil hflat] at hmem
    exact hmem

/-- Witness for C8's theorem at a concrete record whose only parameter is
object-typed, in both column-selection modes. -/
theorem object_params_never_displayed_witness :
    "cfg" ∉ getParamsToDisplay [expObjOnly] true ∧
    "cfg" ∉ getParamsToDisplay [expObjOnly] false :=
  ⟨object_params_never_displayed [expObjOnly] "cfg" true (by decide),
   object_params_never_displayed [expObjOnly] "cfg" false (by decide)⟩

/-- C1 amended: for every non-empty renderable record set, when at least one
record has a best checkpoint every data row has exactly as many cells as the
header has columns; when no record has one, every data row has exactly one
cell more than the header (the unconditional empty best-checkpoint cell). -/
theorem outputTable_row_width_amended :
    ∀ (exps : List ListExperiment) (allParams : Bool),
      exps ≠ [] → (∀ e ∈ exps, 7 ≤ e.ID.length) →
      ∃ rows,
        outputTable exps allParams
          = some (TableOutput.table (headerKeys exps allParams) rows) ∧
        rows.length = exps.length ∧
        ∀ r ∈ rows,
          r.length = (headerKeys exps allParams).length
            + (if hasBestCheckpoint exps = true then 0 else 1) := by
  intro exps allParams hne hids
  obtain ⟨rows, hout, hlen, hmem⟩ := outputTable_some exps allParams hne hids
  refine ⟨rows, hout, hlen, ?_⟩
  intro r hr
  obtain ⟨e, he, hre⟩ := hmem r hr
  rw [hre, rowCells_total_length, headerKeys_length]
  by_cases hb : hasBestCheckpoint exps = true
  · simp only [hb, if_pos rfl, if_true]
    omega
  · have hb2 : hasBestCheckpoint exps = false := by simpa using hb
    have hm : getMetricsToDisplay exps = [] := getMetricsToDisplay_eq_nil exps hb2
    simp [hb2, hm]
    omega

/-- Witness for C1's amended theorem at a concrete one-record set that has a
best checkpoint. -/
theorem outputTable_row_width_amended_witness :
    ∃ rows,
      outputTable [expWithBest] true
        = some (TableOutput.table (headerKeys [expWithBest] true) rows) ∧
      rows.length = [expWithBest].length ∧
      ∀ r ∈ rows,
        r.length = (headerKeys [expWithBest] true).length
          + (if hasBestCheckpoint [expWithBest] = true then 0 else 1) :=
  outputTable_row_width_amended [expWithBest] true (by decide) (by decide)

/-- C2 amended: the BEST CHECKPOINT header block (header column plus the
duplicated metric columns) appears iff at least one record in the set has a
non-absent best checkpoint, and is omitted from the header otherwise; the
data rows, however, unconditionally emit the best-checkpoint cell block (one
checkpoint cell plus one cell per displayed metric, empty when the record has
no best checkpoint), even when no record has one. -/
theorem bestCheckpoint_block_amended :
    ∀ (exps : List ListExperiment) (allParams : Bool),
      exps ≠ [] → (∀ e ∈ exps, 7 ≤ e.ID.length) →
      ∃ rows,
        outputTable exps allParams
          = some (TableOutput.table (headerKeys exps allParams) rows) ∧
        (hasBestCheckpoint exps = true ↔ ∃ e ∈ exps, e.BestCheckpoint.isSome = true) ∧
        (hasBestCheckpoint exps = true →
          headerKeys exps allParams =
            ["EXPERIMENT", "STARTED", "STATUS", "HOST", "USER"]
              ++ upper (getParamsToDisplay exps (!allParams))
              ++ ["LATEST CHECKPOINT"]
              ++ upper (getMetricsToDisplay exps)
              ++ "BEST CHECKPOINT" :: upper (getMetricsToDisplay exps)) ∧
        (hasBestCheckpoint exps = false →
          headerKeys exps allParams =
            ["EXPERIMENT", "STARTED", "STATUS", "HOST", "USER"]
              ++ upper (getParamsToDisplay exps (!allParams))
              ++ ["LATEST CHECKPOINT"]) ∧
        ∀ r ∈ rows, ∃ e ∈ exps,
          r = rowMainCells (getParamsToDisplay exps (!allParams))
                (getMetricsToDisplay exps) e
              ++ rowBestCells (getMetricsToDisplay exps) e ∧
          (rowBestCells (getMetricsToDisplay exps) e).length
            = 1 + (getMetricsToDisplay exps).length := by
  intro exps allParams hne hids
  obtain ⟨rows, hout, hlen, hmem⟩ := outputTable_some exps allParams hne hids
  refine ⟨rows, hout, ?_, ?_, ?_, ?_⟩
  · simp [hasBestCheckpoint, List.any_eq_true]
  · intro hb
    simp [headerKeys, hb]
  · intro hb
    have hm := getMetricsToDisplay_eq_nil exps hb
    simp [headerKeys, hb, hm, upper]
  · intro r hr
    obtain ⟨e, he, hre⟩ := hmem r hr
    refine ⟨e, he, hre, ?_⟩
    simp [rowBestCells]
    omega

/-- Witness for C2's amended theorem at a concrete record set in which no
record has a best checkpoint. -/
theorem bestCheckpoint_block_amended_witness :
    ∃ rows,
      outputTable [expNoBest, expNoBest2] false
        = some (TableOutput.table (headerKeys [expNoBest, expNoBest2] false) rows) ∧
      (hasBestCheckpoint [expNoBest, expNoBest2] = true ↔
        ∃ e ∈ [expNoBest, expNoBest2], e.BestCheckpoint.isSome = true) ∧
      (hasBestCheckpoint [expNoBest, expNoBest2] = true →
        headerKeys [expNoBest, expNoBest2] false =
          ["EXPERIMENT", "STARTED", "STATUS", "HOST", "USER"]
            ++ upper (getParamsToDisplay [expNoBest, expNoBest2] (!false))
            ++ ["LATEST CHECKPOINT"]
            ++ upper (getMetricsToDisplay [expNoBest, expNoBest2])
            ++ "BEST CHECKPOINT" :: upper (getMetricsToDisplay [expNoBest, expNoBest2])) ∧
      (hasBestCheckpoint [expNoBest, expNoBest2] = false →
        headerKeys [expNoBest, expNoBest2] false =
          ["EXPERIMENT", "STARTED", "STATUS", "HOST", "USER"]
            ++ upper (getParamsToDisplay [expNoBest, expNoBest2] (!false))
            ++ ["LATEST CHECKPOINT"]) ∧
      ∀ r ∈ rows, ∃ e ∈ [expNoBest, expNoBest2],
        r = rowMainCells (getParamsToDisplay [expNoBest, expNoBest2] (!false))
              (getMetricsToDisplay [expNoBest, expNoBest2]) e
            ++ rowBestCells (getMetricsToDisplay [expNoBest, expNoBest2]) e ∧
        (rowBestCells (getMetricsToDisplay [expNoBest, expNoBest2]) e).length
          = 1 + (getMetricsToDisplay [expNoBest, expNoBest2]).length :=
  bestCheckpoint_block_amended [expNoBest, expNoBest2] false (by decide) (by decide)

theorem createLoop_ok (proj : Project) (filters : Filters) :
    ∀ exps : List Experiment, (∀ e ∈ exps, stepFails proj filters e = false) →
      createLoop proj filters exps = .ok (exps.filterMap (keptRecord proj filters)) := by
  intro exps
  induction exps with
  | nil => intro _; rfl
  | cons e exps ih =>
    intro h
    have he : stepFails proj filters e = false := h e (by simp)
    have hrest := ih (fun x hx => h x (by simp [hx]))
    cases hrun : proj.ExperimentIsRunning e.ID with
    | error er => simp [stepFails, hrun] at he
    | ok running =>
      cases hmat : filters.Matches (builtRecord e running) with
      | error er => simp [stepFails, hrun, hmat] at he
      | ok m =>
        simp only [createLoop, hrun, hmat, hrest]
        cases m <;> simp [List.filterMap_cons, keptRecord, hrun, hmat]

theorem createLoop_error (proj : Project) (filters : Filters) :
    ∀ exps : List Experiment, (∃ e ∈ exps, stepFails proj filters e = true) →
      ∃ err, createLoop proj filters exps = .error err := by
  intro exps
  induction exps with
  | nil => rintro ⟨e, he, -⟩; simp at he
  | cons e exps ih =>
    rintro ⟨x, hx, hfail⟩
    rcases List.mem_cons.mp hx with rfl | hx2
    · cases hrun : proj.ExperimentIsRunning x.ID with
      | error er => exact ⟨er, by simp [createLoop, hrun]⟩
      | ok running =>
        cases hmat : filters.Matches (builtRecord x running) with
        | error er => exact ⟨er, by simp [createLoop, hrun, hmat]⟩
        | ok m => simp [stepFails, hrun, hmat] at hfail
    · cases hrun : proj.ExperimentIsRunning e.ID with
      | error er => exact ⟨er, by simp [createLoop, hrun]⟩
      | ok running =>
        cases hmat : filters.Matches (builtRecord e running) with
        | error er => exact ⟨er, by simp [createLoop, hrun, hmat]⟩
        | ok m =>
          obtain ⟨err, herr⟩ := ih ⟨x, hx2, hfail⟩
          exact ⟨err, by simp [createLoop, hrun, hmat, herr]⟩

/-- C7: a failure of the experiment fetch, of the external run-state query,
or of filter-predicate evaluation on any record aborts the whole listing
operation — the error is propagated and no record sequence is returned —
while records whose predicate returns false without error are simply
dropped from the otherwise successful result. -/
theorem listing_error_propagation :
    (∀ (proj : Project) (filters : Filters) (err : String),
      proj.Experiments = .error err →
        createListExperiments proj filters = .error err) ∧
    (∀ (proj : Project) (filters : Filters) (exps : List Experiment),
      proj.Experiments = .ok exps →
      (∃ e ∈ exps, stepFails proj filters e = true) →
        ∃ err, createListExperiments proj filters = .error err) ∧
    (∀ (proj : Project) (filters : Filters) (exps : List Experiment),
      proj.Experiments = .ok exps →
      (∀ e ∈ exps, stepFails proj filters e = false) →
        createListExperiments proj filters =
          .ok (sortByCreated (exps.filterMap (keptRecord proj filters)))) := by
  refine ⟨?_, ?_, ?_⟩
  · intro proj filters err h
    simp [createListExperiments, h]
  · intro proj filters exps h hfail
    obtain ⟨err, herr⟩ := createLoop_error proj filters exps hfail
    exact ⟨err, by simp [createListExperiments, h, herr]⟩
  · intro proj filters exps h hok
    simp [createListExperiments, h, createLoop_ok proj filters exps hok]

/-- Witness for C7's theorem: a failing run-state query aborts, a failing
filter aborts, and an all-successful run returns the filtered sorted
records. -/
theorem listing_error_propagation_witness :
    (∃ err, createListExperiments projFailRun filtersTrue = .error err) ∧
    (∃ err, createListExperiments projOk filtersFail = .error err) ∧
    createListExperiments projOk filtersTrue =
      .ok (sortByCreated ([rawExp1].filterMap (keptRecord projOk filtersTrue))) :=
  ⟨listing_error_propagation.2.1 projFailRun filtersTrue [rawExp1] rfl (by decide),
   listing_error_propagation.2.1 projOk filtersFail [rawExp1] rfl (by decide),
   listing_error_propagation.2.2 projOk filtersTrue [rawExp1] rfl (by decide)⟩

theorem strLeAux_cons_iff (a b : Char) (as bs : List Char) :
    strLeAux (a :: as) (b :: bs) = true ↔
      a.toNat < b.toNat ∨ (a.toNat = b.toNat ∧ strLeAux as bs = true) := by
  simp only [strLeAux]
  by_cases h1 : a.toNat < b.toNat
  · simp [h1]
  · by_cases h2 : b.toNat < a.toNat
    · rw [if_neg h1, if_pos h2]
      constructor
      · intro h; simp at h
      · rintro (h | ⟨he, -⟩) <;> omega
    · have h3 : a.toNat = b.toNat := by omega
      simp [h1, h2, h3]

theorem strLeAux_total : ∀ as bs : List Char, strLeAux as bs = true ∨ strLeAux bs as = true
  | [], _ => Or.inl rfl
  | _ :: _, [] => Or.inr rfl
  | a :: as, b :: bs => by
    by_cases hab : a.toNat < b.toNat
    · exact Or.inl ((strLeAux_cons_iff a b as bs).mpr (Or.inl hab))
    by_cases hba : b.toNat < a.toNat
    · exact Or.inr ((strLeAux_cons_iff b a bs as).mpr (Or.inl hba))
    rcases strLeAux_total as bs with h | h
    · exact Or.inl ((strLeAux_cons_iff a b as bs).mpr (Or.inr ⟨by omega, h⟩))
    · exact Or.inr ((strLeAux_cons_iff b a bs as).mpr (Or.inr ⟨by omega, h⟩))

theorem strLeAux_trans : ∀ as bs cs : List Char,
    strLeAux as bs = true → strLeAux bs cs = true → strLeAux as cs = true
  | [], _, _, _, _ => rfl
  | _ :: _, [], _, h, _ => by simp [strLeAux] at h
  | _ :: _, _ :: _, [], _, h => by simp [strLeAux] at h
  | a :: as, b :: bs, c :: cs, h1, h2 => by
    rw [strLeAux_cons_iff] at h1 h2 ⊢
    rcases h1 with h1 | ⟨he1, h1⟩
    · rcases h2 with h2 | ⟨he2, h2⟩
      · exact Or.inl (by omega)
      · exact Or.inl (by omega)
    · rcases h2 with h2 | ⟨he2, h2⟩
      · exact Or.inl (by omega)
      · exact Or.inr ⟨by omega, strLeAux_trans as bs cs h1 h2⟩

theorem strLeAux_antisymm : ∀ as bs : List Char,
    strLeAux as bs = true → strLeAux bs as = true → as = bs
  | [], [], _, _ => rfl
  | [], _ :: _, _, h => by simp [strLeAux] at h
  | _ :: _, [], h, _ => by simp [strLeAux] at h
  | a :: as, b :: bs, h1, h2 => by
    rw [strLeAux_cons_iff] at h1 h2
    rcases h1 with h1 | ⟨he1, h1⟩
    · rcases h2 with h2 | ⟨he2, -⟩ <;> omega
    · rcases h2 with h2 | ⟨he2, h2⟩
      · omega
      · have hc : a = b := Char.ext (UInt32.ext he1)
        rw [hc, strLeAux_antisymm as bs h1 h2]

theorem StringKeys_eq_of_mem_iff {l1 l2 : List String}
    (h : ∀ x, x ∈ l1 ↔ x ∈ l2) : StringKeys l1 = StringKeys l2 := by
  haveI htot : IsTotal String SLe := ⟨fun a b => strLeAux_total a.data b.data⟩
  haveI htr : IsTrans String SLe := ⟨fun a b c => strLeAux_trans a.data b.data c.data⟩
  haveI hanti : IsAntisymm String SLe :=
    ⟨fun a b h1 h2 => String.ext (strLeAux_antisymm a.data b.data h1 h2)⟩
  have hd : l1.dedup.Perm l2.dedup := by
    apply List.Subperm.antisymm
    · refine (List.nodup_dedup l1).subperm ?_
      intro x hx
      exact List.mem_dedup.mpr ((h x).mp (List.mem_dedup.mp hx))
    · refine (List.nodup_dedup l2).subperm ?_
      intro x hx
      exact List.mem_dedup.mpr ((h x).mpr (List.mem_dedup.mp hx))
  have hp : (StringKeys l1).Perm (StringKeys l2) :=
    ((List.perm_insertionSort SLe l1.dedup).trans hd).trans
      (List.perm_insertionSort SLe l2.dedup).symm
  exact List.eq_of_perm_of_sorted hp (List.sorted_insertionSort SLe l1.dedup)
    (List.sorted_insertionSort SLe l2.dedup)

theorem notEqual_ok_true_iff (a b : Value) :
    a.NotEqual b = Except.ok true ↔ a.type = b.type ∧ a ≠ b := by
  cases a <;> cases b <;> simp [Value.NotEqual, Value.type]

theorem comparableWith_iff (a b : Value) :
    a.comparableWith b = true ↔ a.type = b.type := by
  cases a <;> cases b <;> simp [Value.comparableWith, Value.NotEqual, Value.type]

theorem notEqual_not_true (a b : Value) (hc : a.comparableWith b = true)
    (h : ¬ a.NotEqual b = Except.ok true) : a = b := by
  rw [comparableWith_iff] at hc
  rw [notEqual_ok_true_iff] at h
  by_contra hne
  exact h ⟨hc, hne⟩

theorem mem_valsOf {l : List (String × Value)} {k : String} {v : Value} :
    v ∈ valsOf l k ↔
      ∃ p ∈ l, p.1 = k ∧ p.2.type ≠ ValueType.TypeObject ∧ p.2 = v := by
  simp only [valsOf, List.mem_map, List.mem_filter]
  constructor
  · rintro ⟨p, ⟨hp, hcond⟩, hv⟩
    simp only [Bool.and_eq_true, beq_iff_eq, Bool.not_eq_eq_eq_not, Bool.not_true,
      beq_eq_false_iff_ne, ne_eq] at hcond
    exact ⟨p, hp, hcond.1, hcond.2, hv⟩
  · rintro ⟨p, hp, hk, hobj, hv⟩
    refine ⟨p, ⟨hp, ?_⟩, hv⟩
    simp [hk, hobj]

theorem head_pair_iff (v0 : Value) (vs : List Value)
    (hcomp : ∀ a ∈ v0 :: vs, ∀ b ∈ v0 :: vs, a.comparableWith b = true) :
    (∃ v ∈ vs, v0.NotEqual v = Except.ok true) ↔ someUnequalPair (v0 :: vs) := by
  constructor
  · rintro ⟨v, hv, hne⟩
    exact ⟨v0, by simp, v, by simp [hv], hne⟩
  · rintro ⟨a, ha, b, hb, hne⟩
    have hab : a ≠ b := ((notEqual_ok_true_iff a b).mp hne).2
    by_cases hv0a : v0.NotEqual a = Except.ok true
    · have hane : a ≠ v0 := by
        intro hcontra
        subst hcontra
        exact (((notEqual_ok_true_iff a a).mp hv0a).2) rfl
      have ha2 : a ∈ vs := by
        rcases List.mem_cons.mp ha with h | h
        · exact absurd h hane
        · exact h
      exact ⟨a, ha2, hv0a⟩
    · have hv0a2 : v0 = a :=
        notEqual_not_true v0 a (hcomp v0 (by simp) a ha) hv0a
      have hne2 : v0.NotEqual b = Except.ok true := by rw [hv0a2]; exact hne
      have hbne : b ≠ v0 := by
        intro hcontra
        subst hcontra
        exact hab (hv0a2.symm)
      have hb2 : b ∈ vs := by
        rcases List.mem_cons.mp hb with h | h
        · exact absurd h hbne
        · exact h
      exact ⟨b, hb2, hne2⟩

theorem changedKey_iff_someUnequalPair {l : List (String × Value)} {k : String}
    (hcomp : ∀ a ∈ valsOf l k, ∀ b ∈ valsOf l k, a.comparableWith b = true) :
    changedKey l k ↔ someUnequalPair (valsOf l k) := by
  cases hv : valsOf l k with
  | nil => simp [changedKey, someUnequalPair, hv]
  | cons v0 vs =>
    rw [hv] at hcomp
    simp only [changedKey, hv]
    exact head_pair_iff v0 vs hcomp

theorem someUnequalPair_perm {v1 v2 : List Value} (h : v1.Perm v2) :
    someUnequalPair v1 ↔ someUnequalPair v2 := by
  constructor <;> rintro ⟨a, ha, b, hb, hne⟩
  · exact ⟨a, h.mem_iff.mp ha, b, h.mem_iff.mp hb, hne⟩
  · exact ⟨a, h.mem_iff.mpr ha, b, h.mem_iff.mpr hb, hne⟩

/-- C3 counterexample: permuting the record sequence changes the selected
column set when a key carries three values of mixed types: for records with
p = 1, p = 2, p = "a" in that order the baseline is 1 and the key is
selected, while cycling the "a" record to the front makes every comparison
against the baseline "a" fail (incomparable), selecting nothing. -/
theorem changedOnly_order_dependent_cex :
    ([expParamStr, expParamInt1, expParamInt2] : List ListExperiment).Perm
      [expParamInt1, expParamInt2, expParamStr] ∧
    getParamsToDisplay [expParamInt1, expParamInt2, expParamStr] true = ["p"] ∧
    getParamsToDisplay [expParamStr, expParamInt1, expParamInt2] true = [] :=
  ⟨by decide, by decide, by decide⟩

/-- C3 amended: changed-only column selection is order-independent for every
record set in which same-keyed parameter values are pairwise comparable (the
typed-value inequality test never fails on them): permuting the record
sequence then yields the same selected column list. -/
theorem changedOnly_perm_invariant_amended
    (l1 l2 : List ListExperiment) (hperm : l1.Perm l2)
    (hcomp : ∀ p ∈ flatParams l1, ∀ q ∈ flatParams l1,
      p.1 = q.1 → Value.comparableWith p.2 q.2 = true) :
    getParamsToDisplay l1 true = getParamsToDisplay l2 true := by
  have hflat : (flatParams l1).Perm (flatParams l2) := by
    simp only [flatParams]
    exact hperm.flatMap_right (fun exp => exp.Params)
  have hmem : ∀ k, changedKey (flatParams l1) k ↔ changedKey (flatParams l2) k := by
    intro k
    have hvperm : (valsOf (flatParams l1) k).Perm (valsOf (flatParams l2) k) :=
      (hflat.filter _).map _
    have hcomp1 : ∀ a ∈ valsOf (flatParams l1) k, ∀ b ∈ valsOf (flatParams l1) k,
        a.comparableWith b = true := by
      intro a ha b hb
      rw [mem_valsOf] at ha hb
      obtain ⟨p, hp, hpk, -, hpv⟩ := ha
      obtain ⟨q, hq, hqk, -, hqv⟩ := hb
      rw [← hpv, ← hqv]
      exact hcomp p hp q hq (hpk.trans hqk.symm)
    have hcomp2 : ∀ a ∈ valsOf (flatParams l2) k, ∀ b ∈ valsOf (flatParams l2) k,
        a.comparableWith b = true := by
      intro a ha b hb
      exact hcomp1 a (hvperm.mem_iff.mpr ha) b (hvperm.mem_iff.mpr hb)
    rw [changedKey_iff_someUnequalPair hcomp1, changedKey_iff_someUnequalPair hcomp2]
    exact someUnequalPair_perm hvperm
  have hub : ∀ x, x ∈ (diffFold l1).expHeadingSet ↔ x ∈ (diffFold l2).expHeadingSet := by
    intro x
    have h1 := mem_getParamsToDisplay_changed l1 x
    have h2 := mem_getParamsToDisplay_changed l2 x
    rw [getParamsToDisplay, if_pos rfl, mem_StringKeys] at h1 h2
    rw [h1, h2]
    exact hmem x
  show StringKeys (diffFold l1).expHeadingSet = StringKeys (diffFold l2).expHeadingSet
  exact StringKeys_eq_of_mem_iff hub

/-- Witness for C3's amended theorem: swapping two records whose values for
the shared key are both integers leaves the selected column list unchanged. -/
theorem changedOnly_perm_invariant_amended_witness :
    getParamsToDisplay [expParamInt1, expParamInt2] true =
      getParamsToDisplay [expParamInt2, expParamInt1] true :=
  changedOnly_perm_invariant_amended [expParamInt1, expParamInt2]
    [expParamInt2, expParamInt1] (by decide) (by decide)

end Replicate
